import Mathlib

/-!
Shallow embedding of the FRAME floorplanning repository (geometry kernel,
die decomposition, rectangle splitting, legalizer helpers, force-directed
pre-placement helpers), together with theorems settling the frozen claims.

Numbers: Python floats are modelled as exact rationals; all numeric literals
of the source are read at face value (for example the literal 10e-12 denotes
10 * 10 ^ (-12) = 10 ^ (-11)).
-/

namespace Frame

/-- Two-dimensional point, from frame/geometry/geometry.py (class Point). -/
structure Point where
  x : ℚ
  y : ℚ
deriving DecidableEq, Repr

/-- Width and height, from frame/geometry/geometry.py (dataclass Shape). -/
structure Shape where
  w : ℚ
  h : ℚ
deriving DecidableEq, Repr

/-- Axis-aligned rectangle, from frame/geometry/geometry.py (class Rectangle):
center, shape, the fixed and hard flags, and a region tag (a string). -/
structure Rectangle where
  center : Point
  shape : Shape
  fixed : Bool
  hard : Bool
  region : String
deriving DecidableEq, Repr

/-- Lower-left and upper-right corners (Rectangle.bounding_box). -/
def Rectangle.bounding_box (r : Rectangle) : Point × Point :=
  (⟨r.center.x - r.shape.w / 2, r.center.y - r.shape.h / 2⟩,
   ⟨r.center.x + r.shape.w / 2, r.center.y + r.shape.h / 2⟩)

/-- Area of a rectangle (Rectangle.area). -/
def Rectangle.area (r : Rectangle) : ℚ :=
  r.shape.w * r.shape.h

/-- Aspect of a rectangle (Rectangle.aspect_ratio): h/w, inverted when below 1. -/
def Rectangle.aspect (r : Rectangle) : ℚ :=
  if r.shape.h / r.shape.w < 1 then 1 / (r.shape.h / r.shape.w)
  else r.shape.h / r.shape.w

/-- Closed-rectangle membership test (Rectangle.point_inside). -/
def Rectangle.point_inside (r : Rectangle) (p : Point) : Bool :=
  decide ((r.bounding_box.1).x ≤ p.x ∧ p.x ≤ (r.bounding_box.2).x ∧
          (r.bounding_box.1).y ≤ p.y ∧ p.y ≤ (r.bounding_box.2).y)

/-- Overlap area of two rectangles (Rectangle.area_overlap), with the two
early returns of the source when the x- or y-extents do not overlap. -/
def Rectangle.area_overlap (r1 r2 : Rectangle) : ℚ :=
  if min (r1.bounding_box.2).x (r2.bounding_box.2).x ≤
     max (r1.bounding_box.1).x (r2.bounding_box.1).x then 0
  else if min (r1.bounding_box.2).y (r2.bounding_box.2).y ≤
          max (r1.bounding_box.1).y (r2.bounding_box.1).y then 0
  else (min (r1.bounding_box.2).x (r2.bounding_box.2).x -
        max (r1.bounding_box.1).x (r2.bounding_box.1).x) *
       (min (r1.bounding_box.2).y (r2.bounding_box.2).y -
        max (r1.bounding_box.1).y (r2.bounding_box.1).y)

/-- Boolean overlap test (Rectangle.overlap): positive overlap area. -/
def Rectangle.overlap (r1 r2 : Rectangle) : Bool :=
  decide (0 < r1.area_overlap r2)

/-- Effective cut coordinate: the source replaces a negative coordinate by the
midline (the sentinel default argument is -1). -/
def default_cut (mid v : ℚ) : ℚ :=
  if v < 0 then mid else v

/-- Rectangle.split_horizontal: cut at x (negative x means the vertical
midline); the source asserts that the cut is strictly inside, modelled as
returning none. -/
def Rectangle.split_horizontal (r : Rectangle) (x : ℚ) :
    Option (Rectangle × Rectangle) :=
  if (r.bounding_box.1).x < default_cut r.center.x x ∧
     default_cut r.center.x x < (r.bounding_box.2).x then
    some ({ r with center := ⟨((r.bounding_box.1).x + default_cut r.center.x x) / 2, r.center.y⟩,
                   shape := ⟨default_cut r.center.x x - (r.bounding_box.1).x, r.shape.h⟩ },
          { r with center := ⟨((r.bounding_box.2).x + default_cut r.center.x x) / 2, r.center.y⟩,
                   shape := ⟨r.shape.w - (default_cut r.center.x x - (r.bounding_box.1).x),
                             r.shape.h⟩ })
  else none

/-- Rectangle.split_vertical: cut at y (negative y means the horizontal
midline); the failing assertion of the source is modelled as none. -/
def Rectangle.split_vertical (r : Rectangle) (y : ℚ) :
    Option (Rectangle × Rectangle) :=
  if (r.bounding_box.1).y < default_cut r.center.y y ∧
     default_cut r.center.y y < (r.bounding_box.2).y then
    some ({ r with center := ⟨r.center.x, ((r.bounding_box.1).y + default_cut r.center.y y) / 2⟩,
                   shape := ⟨r.shape.w, default_cut r.center.y y - (r.bounding_box.1).y⟩ },
          { r with center := ⟨r.center.x, ((r.bounding_box.2).y + default_cut r.center.y y) / 2⟩,
                   shape := ⟨r.shape.w,
                             r.shape.h - (default_cut r.center.y y - (r.bounding_box.1).y)⟩ })
  else none

/-- Rectangle.split: halve the longer dimension (vertical cut when h > w). -/
def Rectangle.split (r : Rectangle) : Option (Rectangle × Rectangle) :=
  if r.shape.w < r.shape.h then r.split_vertical (-1) else r.split_horizontal (-1)

/-- Mathematical intersection area of the two bounding boxes, written from the
specification's words (the nonnegative area of the intersection), to be
compared with the source's area_overlap. -/
def boxes_meet_area (r1 r2 : Rectangle) : ℚ :=
  max 0 (min (r1.bounding_box.2).x (r2.bounding_box.2).x -
         max (r1.bounding_box.1).x (r2.bounding_box.1).x) *
  max 0 (min (r1.bounding_box.2).y (r2.bounding_box.2).y -
         max (r1.bounding_box.1).y (r2.bounding_box.1).y)

/-- Dynamic operand of Rectangle.__eq__: either an actual rectangle or any
value of another Python type. -/
inductive PyValue where
  | rect (r : Rectangle)
  | other
deriving DecidableEq, Repr

/-- Rectangle.__eq__: False on a non-rectangle operand; otherwise compare
center, shape and region (the fixed and hard flags are not consulted). -/
def rect_eq (r : Rectangle) (v : PyValue) : Bool :=
  match v with
  | .rect s => decide (r.center = s.center) && decide (r.shape = s.shape) &&
               decide (r.region = s.region)
  | .other => false

/-- Legalizer helper thin, from tools/legalfloor/legalfloor.py. -/
def thin (w h : ℚ) : ℚ :=
  w * h / (w * w + h * h)

/-- Attraction magnitude f_att(x, a) = x^2 / (k*a) of the Fruchterman-Reingold
pass, from tools/force/fruchterman_reingold.py. -/
def f_att (k x a : ℚ) : ℚ :=
  x ^ 2 / (k * a)

/-- Repulsion magnitude f_rep(x, a) = (k*a)^2 / x of the Fruchterman-Reingold
pass, from tools/force/fruchterman_reingold.py. -/
def f_rep (k x a : ℚ) : ℚ :=
  (k * a) ^ 2 / x

/-- The main loop clamps every pairwise distance below by 0.01 before feeding
it to the force functions (max(diff.norm(), 0.01)). -/
def clamped_dist (d : ℚ) : ℚ :=
  max d (1 / 100)

/-- Magnitude of the repulsion displacement the loop adds for one ordered pair
of distinct modules at distance d, where a is the area of the displaced
module. -/
def repulsion_magnitude (k d a : ℚ) : ℚ :=
  f_rep k (clamped_dist d) a

/-- Magnitude of the attraction displacement the loop adds along a hyperedge
pair at distance d, where a is the area of the displaced module. -/
def attraction_magnitude (k d a : ℚ) : ℚ :=
  f_att k (clamped_dist d) a

/-- Coordinate epsilon of the die, from Die.__init__:
min(width, height) * 10e-12 (the Python literal 10e-12 is 10 * 10 ^ (-12)). -/
def die_epsilon (s : Shape) : ℚ :=
  min s.w s.h * (10 / 10 ^ 12)

/-- State of a constructed Die (class Die): the die shape and the four lists
of rectangles whose union Die._check_rectangles validates. -/
structure DieData where
  shape : Shape
  regions : List Rectangle
  ground_regions : List Rectangle
  blockages : List Rectangle
  fixed : List Rectangle
deriving Repr

/-- The list regions + ground_regions + blockages + fixed checked by
Die._check_rectangles. -/
def DieData.all_rectangles (d : DieData) : List Rectangle :=
  d.regions ++ d.ground_regions ++ d.blockages ++ d.fixed

/-- The rectangle covering the whole die built inside Die._check_rectangles.
The region tag GROUND is modelled from the spec: the reserved tag is the
string "ground" (its defining file frame/utils/keywords.py is not in src). -/
def DieData.die_rectangle (d : DieData) : Rectangle :=
  { center := ⟨d.shape.w / 2, d.shape.h / 2⟩, shape := d.shape,
    fixed := false, hard := false, region := "ground" }

/-- The pairwise loop of Die._check_rectangles over combinations(all, 2):
no pair in the list overlaps. -/
def no_pair_overlap : List Rectangle → Bool
  | [] => true
  | r :: rs => rs.all (fun s => !(r.overlap s)) && no_pair_overlap rs

/-- Die._check_rectangles as a predicate: true exactly when none of its three
assertions fires (all corners inside the die, no pair overlaps, total area
within the die's epsilon of the die area). -/
def DieData.check_rectangles (d : DieData) : Bool :=
  (d.all_rectangles.all fun r =>
     d.die_rectangle.point_inside r.bounding_box.1 &&
     d.die_rectangle.point_inside r.bounding_box.2) &&
  no_pair_overlap d.all_rectangles &&
  decide (|((d.all_rectangles.map Rectangle.area).sum) - d.die_rectangle.area| <
          die_epsilon d.shape)

/-!
Ground decomposition (Die._find_largest_ground_region, Die._expand_rectangle).
The strip grid is a matrix of cells (True = occupied) between consecutive
coordinates of the x and y lists.
-/

/-- Candidate cell-rectangle (dataclass GroundRegion); the field named ratio
in the source is called rat here. -/
structure GroundRegion where
  rmin : Nat
  rmax : Nat
  cmin : Nat
  cmax : Nat
  area : ℚ
  rat : ℚ
deriving DecidableEq, Repr

/-- Aspect value stored in a GroundRegion: height/width, inverted when
below 1 (the ratio computation repeated at each creation site). -/
def aspect_of (h w : ℚ) : ℚ :=
  if h / w < 1 then 1 / (h / w) else h / w

/-- Strip grid of the die: boundary coordinates and the occupancy matrix
(Die._x, Die._y, Die._cells, with cells indexed row first). -/
structure CellGrid where
  xs : List ℚ
  ys : List ℚ
  cells : List (List Bool)
deriving Repr

/-- Coordinate self._x[i]. -/
def CellGrid.xcoord (g : CellGrid) (i : Nat) : ℚ := g.xs.getD i 0

/-- Coordinate self._y[i]. -/
def CellGrid.ycoord (g : CellGrid) (i : Nat) : ℚ := g.ys.getD i 0

/-- Occupancy self._cells[row][col]. -/
def CellGrid.occupied (g : CellGrid) (row col : Nat) : Bool :=
  (g.cells.getD row []).getD col false

/-- len(self._cells). -/
def CellGrid.nrows (g : CellGrid) : Nat := g.cells.length

/-- len(self._cells[0]). -/
def CellGrid.ncols (g : CellGrid) : Nat := (g.cells.getD 0 []).length

/-- Row-extension validity test of Die._expand_rectangle:
not any(cells[row][j] for j in range(cmin, cmax + 1)). -/
def CellGrid.row_free (g : CellGrid) (row cmin cmax : Nat) : Bool :=
  (List.range' cmin (cmax + 1 - cmin)).all fun j => !(g.occupied row j)

/-- Column-extension validity test of Die._expand_rectangle:
not any(cells[i][col] for i in range(rmin, rmax + 1)). -/
def CellGrid.col_free (g : CellGrid) (col rmin rmax : Nat) : Bool :=
  (List.range' rmin (rmax + 1 - rmin)).all fun i => !(g.occupied i col)

/-- One-row extension of a candidate (first branch of the BFS body); none when
the region touches the top row or the new row is not free. -/
def CellGrid.grow_row (g : CellGrid) (r : GroundRegion) : Option GroundRegion :=
  if r.rmax < g.nrows - 1 then
    if g.row_free (r.rmax + 1) r.cmin r.cmax then
      some ⟨r.rmin, r.rmax + 1, r.cmin, r.cmax,
            (g.ycoord (r.rmax + 2) - g.ycoord r.rmin) *
            (g.xcoord (r.cmax + 1) - g.xcoord r.cmin),
            aspect_of (g.ycoord (r.rmax + 2) - g.ycoord r.rmin)
                      (g.xcoord (r.cmax + 1) - g.xcoord r.cmin)⟩
    else none
  else none

/-- One-column extension of a candidate (second branch of the BFS body). -/
def CellGrid.grow_col (g : CellGrid) (r : GroundRegion) : Option GroundRegion :=
  if r.cmax < g.ncols - 1 then
    if g.col_free (r.cmax + 1) r.rmin r.rmax then
      some ⟨r.rmin, r.rmax, r.cmin, r.cmax + 1,
            (g.ycoord (r.rmax + 1) - g.ycoord r.rmin) *
            (g.xcoord (r.cmax + 2) - g.xcoord r.cmin),
            aspect_of (g.ycoord (r.rmax + 1) - g.ycoord r.rmin)
                      (g.xcoord (r.cmax + 2) - g.xcoord r.cmin)⟩
    else none
  else none

/-- Insert a freshly grown candidate unless already generated (the membership
test against g_regions and the pending append of the BFS). -/
def push_candidate (st : List GroundRegion × List GroundRegion)
    (cand : Option GroundRegion) : List GroundRegion × List GroundRegion :=
  match cand with
  | none => st
  | some nr =>
      if nr ∈ st.1 then st else (st.1 ++ [nr], st.2 ++ [nr])

/-- Breadth-first loop of Die._expand_rectangle: pop the pending deque from
the left, try the row extension then the column extension. The fuel argument
only bounds the recursion; it is chosen large enough everywhere below. -/
def expand_go (g : CellGrid) : Nat → List GroundRegion → List GroundRegion →
    List GroundRegion
  | 0, acc, _ => acc
  | _ + 1, acc, [] => acc
  | fuel + 1, acc, r :: pending =>
      let st := push_candidate (push_candidate (acc, pending) (g.grow_row r))
                  (g.grow_col r)
      expand_go g fuel st.1 st.2

/-- Die._expand_rectangle: all candidates generated from one starting
region, in first-generation order. -/
def CellGrid.expand (g : CellGrid) (r : GroundRegion) : List GroundRegion :=
  expand_go g ((g.nrows * g.ncols + 1) * (g.nrows * g.ncols + 1) + 1) [r] [r]

/-- Set union all_regions | more_regions, modelled on lists keeping the first
occurrence of each candidate. -/
def region_union (a b : List GroundRegion) : List GroundRegion :=
  a ++ b.filter (fun r => !(decide (r ∈ a)))

/-- All candidate regions of one decomposition step: for every free starting
cell in row-major order, the BFS-expanded candidates, accumulated by set
union (the double loop of Die._find_largest_ground_region). -/
def CellGrid.candidates (g : CellGrid) : List GroundRegion :=
  (List.range g.nrows).foldl
    (fun all r =>
      (List.range (g.cells.getD r []).length).foldl
        (fun all c =>
          if g.occupied r c then all
          else
            region_union all
              (g.expand ⟨r, r, c, c,
                 (g.xcoord (c + 1) - g.xcoord c) * (g.ycoord (r + 1) - g.ycoord r),
                 aspect_of (g.ycoord (r + 1) - g.ycoord r)
                           (g.xcoord (c + 1) - g.xcoord c)⟩))
        all)
    []

/-- Selection loop of Die._find_largest_ground_region: scan the candidates in
the given order, keeping the first one whose area strictly exceeds the
running maximum (initialised to -1). -/
def select_max_go : ℚ → Option GroundRegion → List GroundRegion →
    Option GroundRegion
  | _, best, [] => best
  | m, best, r :: rest =>
      if m < r.area then select_max_go r.area (some r) rest
      else select_max_go m best rest

/-- The selected candidate for one enumeration order of the candidate set. -/
def select_max (l : List GroundRegion) : Option GroundRegion :=
  select_max_go (-1) none l

/-- The ground rectangle emitted for the selected candidate (the kwargs
construction at the end of Die._find_largest_ground_region). -/
def CellGrid.region_rectangle (g : CellGrid) (reg : GroundRegion) : Rectangle :=
  { center := ⟨(g.xcoord reg.cmin + g.xcoord (reg.cmax + 1)) / 2,
               (g.ycoord reg.rmin + g.ycoord (reg.rmax + 1)) / 2⟩,
    shape := ⟨g.xcoord (reg.cmax + 1) - g.xcoord reg.cmin,
              g.ycoord (reg.rmax + 1) - g.ycoord reg.rmin⟩,
    fixed := false, hard := false, region := "ground" }

/-!
split_rectangles (frame/geometry/geometry.py). Heap entries mirror
PrioritizedRectangle: the comparison key (the negated area) paired with the
rectangle, ordered by the key alone. The heap operations are a port of
Python's heapq (_siftdown, _siftup, heappush, heappop, heapify).
-/

/-- Heap entry: PrioritizedRectangle(area = -r.area, rect = r). -/
abbrev PrioRect := ℚ × Rectangle

/-- Order of PrioritizedRectangle: comparison on the area field only. -/
def prio_lt (a b : PrioRect) : Bool :=
  decide (a.1 < b.1)

/-- heapq._siftdown loop: move newitem toward the root while it is smaller
than its parent. The fuel only bounds the recursion (the position strictly
decreases); heap length always suffices. -/
def siftdown_go : Nat → List PrioRect → Nat → Nat → PrioRect → List PrioRect
  | 0, hp, _, pos, item => hp.set pos item
  | fuel + 1, hp, startpos, pos, item =>
      if startpos < pos then
        let parentpos := (pos - 1) / 2
        let parent := hp.getD parentpos item
        if prio_lt item parent then
          siftdown_go fuel (hp.set pos parent) startpos parentpos item
        else hp.set pos item
      else hp.set pos item

/-- heapq._siftdown(heap, startpos, pos). -/
def siftdown (hp : List PrioRect) (startpos pos : Nat) : List PrioRect :=
  match hp[pos]? with
  | none => hp
  | some item => siftdown_go hp.length hp startpos pos item

/-- heapq._siftup loop: bubble the hole down to a leaf along the smaller
child, then restore newitem by a final _siftdown. -/
def siftup_go : Nat → List PrioRect → Nat → Nat → PrioRect → List PrioRect
  | 0, hp, startpos, pos, item => siftdown_go hp.length (hp.set pos item) startpos pos item
  | fuel + 1, hp, startpos, pos, item =>
      let endpos := hp.length
      let childpos := 2 * pos + 1
      if childpos < endpos then
        let rightpos := childpos + 1
        let childpos :=
          if rightpos < endpos &&
             !(prio_lt (hp.getD childpos item) (hp.getD rightpos item)) then
            rightpos
          else childpos
        siftup_go fuel (hp.set pos (hp.getD childpos item)) startpos childpos item
      else siftdown_go hp.length (hp.set pos item) startpos pos item

/-- heapq._siftup(heap, pos). -/
def siftup (hp : List PrioRect) (pos : Nat) : List PrioRect :=
  match hp[pos]? with
  | none => hp
  | some item => siftup_go hp.length hp pos pos item

/-- heapq.heappush. -/
def heappush (hp : List PrioRect) (item : PrioRect) : List PrioRect :=
  siftdown (hp ++ [item]) 0 hp.length

/-- heapq.heappop: none models the IndexError on an empty heap. -/
def heappop (hp : List PrioRect) : Option (PrioRect × List PrioRect) :=
  match hp.getLast? with
  | none => none
  | some lastelt =>
      match hp.dropLast[0]? with
      | none => some (lastelt, [])
      | some top => some (top, siftup (hp.dropLast.set 0 lastelt) 0)

/-- heapq.heapify: _siftup on each internal node, last first. -/
def heapify (hp : List PrioRect) : List PrioRect :=
  (List.range (hp.length / 2)).reverse.foldl (fun h i => siftup h i) hp

/-- First phase of split_rectangles: the deque loop popping from the right,
splitting any rectangle whose aspect exceeds the bound and collecting the
others (the queue is held reversed, so its head is the right end; the heap
list keeps append order). A split that would fail, or fuel exhaustion,
yields none. -/
def split_phase1 (maxAspect : ℚ) :
    Nat → List Rectangle → List PrioRect → Option (List PrioRect)
  | 0, _, _ => none
  | _ + 1, [], acc => some acc
  | fuel + 1, r :: rest, acc =>
      if maxAspect < r.aspect then
        match r.split with
        | none => none
        | some (r1, r2) => split_phase1 maxAspect fuel (r2 :: r1 :: rest) acc
      else split_phase1 maxAspect fuel rest (acc ++ [(-r.area, r)])

/-- Second phase of split_rectangles: while the heap is smaller than n, pop
the largest-area rectangle, split it and push both halves. -/
def split_phase2 (n : Nat) : Nat → List PrioRect → Option (List PrioRect)
  | 0, _ => none
  | fuel + 1, hp =>
      if n ≤ hp.length then some hp
      else
        match heappop hp with
        | none => none
        | some (top, rest) =>
            match top.2.split with
            | none => none
            | some (r1, r2) =>
                split_phase2 n fuel (heappush (heappush rest (-r1.area, r1)) (-r2.area, r2))

/-- split_rectangles(rectangles, aspect_ratio, n): the two leading assertions
(n > 0 and the aspect bound above 1.415) are modelled as none; otherwise run
the two phases and return the rectangles of the heap entries. -/
def split_rectangles (fuel : Nat) (rectangles : List Rectangle)
    (maxAspect : ℚ) (n : Nat) : Option (List Rectangle) :=
  if n = 0 then none
  else if maxAspect ≤ 283 / 200 then none
  else
    match split_phase1 maxAspect fuel rectangles.reverse [] with
    | none => none
    | some heap =>
        if n ≤ heap.length then some (heap.map Prod.snd)
        else (split_phase2 n fuel (heapify heap)).map (List.map Prod.snd)

/-!
Concrete instances used by witnesses and counterexamples.
-/

/-- The single 1 x 10 rectangle of the aspect-splitting scenario. -/
def tall_rect : Rectangle :=
  ⟨⟨1 / 2, 5⟩, ⟨1, 10⟩, false, false, "ground"⟩

/-- A unit square with its lower-left corner at the origin. -/
def unit_square : Rectangle :=
  ⟨⟨1 / 2, 1 / 2⟩, ⟨1, 1⟩, false, false, "ground"⟩

/-- A 10 x 10 die carrying a single ground rectangle covering it. -/
def demo_die : DieData :=
  ⟨⟨10, 10⟩, [], [⟨⟨5, 5⟩, ⟨10, 10⟩, false, false, "ground"⟩], [], []⟩

/-!
Theorems settling the claims.
-/

/-- C9, counterexample: on a 1 x 1 die the source's epsilon
min(w, h) * 10e-12 is not 10^(-12) * min(w, h): the literal 10e-12 denotes
10^(-11), so the computed value is 10^(-11). -/
theorem epsilon_value_cex : die_epsilon ⟨1, 1⟩ ≠ 1 / 10 ^ 12 := by
  norm_num [die_epsilon]

/-- C9, amended: the coordinate epsilon of die decomposition equals
10^(-11) * min(die width, die height), because the source multiplies by the
float literal 10e-12 = 10 * 10^(-12). -/
theorem epsilon_value (s : Shape) : die_epsilon s = min s.w s.h / 10 ^ 11 := by
  unfold die_epsilon
  ring

/-- C6, counterexample: thin(1, 1) = 1/2, so thin is not bounded by 1/4. -/
theorem thin_quarter_cex : thin 1 1 = 1 / 2 ∧ ¬ thin 1 1 ≤ 1 / 4 := by
  norm_num [thin]

/-- C6, amended: for positive w and h, thin(w, h) = w*h/(w^2 + h^2) is
bounded by 1/2, with equality exactly when w = h. -/
theorem thin_half_bound (w h : ℚ) (hw : 0 < w) (hh : 0 < h) :
    thin w h ≤ 1 / 2 ∧ (thin w h = 1 / 2 ↔ w = h) := by
  have hd : 0 < w * w + h * h := by positivity
  refine ⟨?_, ?_, ?_⟩
  · rw [thin, div_le_iff₀ hd]
    nlinarith [sq_nonneg (w - h)]
  · intro he
    rw [thin, div_eq_iff (ne_of_gt hd)] at he
    have hz : (w - h) ^ 2 = 0 := by nlinarith
    have hwh : w - h = 0 := by
      exact pow_eq_zero_iff two_ne_zero |>.mp hz
    linarith
  · intro he
    subst he
    rw [thin, div_eq_iff (ne_of_gt hd)]
    ring

/-- C6, witness: the amended bound applied at w = h = 1. -/
theorem thin_half_bound_witness :
    thin 1 1 ≤ 1 / 2 ∧ (thin 1 1 = 1 / 2 ↔ (1 : ℚ) = 1) :=
  thin_half_bound 1 1 (by norm_num) (by norm_num)

/-- C8, counterexample: with the die 4 x 1 and one module (so k = 2 satisfies
k * k = die_area / N), a module of area 2 at distance 1 receives a repulsion
magnitude of (k*a)^2 / d = 16, not the claimed k^2 * a / d = 8. -/
theorem repulsion_formula_cex :
    (2 : ℚ) * 2 = 4 * 1 / 1 ∧
    repulsion_magnitude 2 1 2 ≠ 2 ^ 2 * 2 / 1 := by
  have hc : clamped_dist 1 = 1 := max_eq_left (by norm_num)
  rw [repulsion_magnitude, hc, f_rep]
  norm_num

/-- C8, amended: for any distance d at least the clamp 0.01, the repulsion
magnitude applied is (k * area_v)^2 / d (the source squares the product
k * area, not only k) and the attraction magnitude is d^2 / (k * area_v);
below 0.01 the clamped distance is used instead. -/
theorem force_magnitudes (k d a : ℚ) (hd : 1 / 100 ≤ d) :
    repulsion_magnitude k d a = (k * a) ^ 2 / d ∧
    attraction_magnitude k d a = d ^ 2 / (k * a) := by
  have hc : clamped_dist d = d := max_eq_left hd
  rw [repulsion_magnitude, attraction_magnitude, hc, f_rep, f_att]
  exact ⟨rfl, rfl⟩

/-- C8, witness: the amended force formulas at k = 2, d = 1, a = 2. -/
theorem force_magnitudes_witness :
    repulsion_magnitude 2 1 2 = (2 * 2) ^ 2 / 1 ∧
    attraction_magnitude 2 1 2 = 1 ^ 2 / (2 * 2) :=
  force_magnitudes 2 1 2 (by norm_num)

/-- C10: Rectangle equality returns true exactly on a rectangle operand with
equal center, shape and region (the fixed and hard flags are ignored, so a
fixed and a movable rectangle with the same geometry and region compare
equal), and returns false on a non-rectangle operand instead of failing. -/
theorem rectangle_eq_spec :
    (∀ (r : Rectangle) (v : PyValue),
       rect_eq r v = true ↔
         ∃ s, v = PyValue.rect s ∧ r.center = s.center ∧ r.shape = s.shape ∧
              r.region = s.region) ∧
    (∀ (c : Point) (sh : Shape) (tag : String) (f₁ h₁ f₂ h₂ : Bool),
       rect_eq ⟨c, sh, f₁, h₁, tag⟩ (PyValue.rect ⟨c, sh, f₂, h₂, tag⟩) = true) := by
  constructor
  · intro r v
    cases v with
    | rect s => simp [rect_eq, and_assoc]
    | other => simp [rect_eq]
  · intro c sh tag f₁ h₁ f₂ h₂
    simp [rect_eq]

/-- C3, counterexample: on the single 1 x 10 rectangle with maximum aspect 2
and n = 1, split_rectangles does not return five rectangles, and does not
return five 1 x 2 rectangles: halving can only produce heights
10, 5, 5/2, 5/4. -/
theorem split_until_example_cex :
    (split_rectangles 100 [tall_rect] 2 1).map List.length ≠ some 5 ∧
    (split_rectangles 100 [tall_rect] 2 1).map (List.map Rectangle.shape) ≠
      some (List.replicate 5 ⟨1, 2⟩) :=
  of_decide_eq_true (by with_unfolding_all rfl)

/-- C3, amended: on the single 1 x 10 rectangle with maximum aspect 2 and
n = 1, split_rectangles returns exactly eight rectangles, each of width 1
and height 5/4. -/
theorem split_until_example_amended :
    (split_rectangles 100 [tall_rect] 2 1).map (List.map Rectangle.shape) =
      some (List.replicate 8 ⟨1, 5 / 4⟩) :=
  of_decide_eq_true (by with_unfolding_all rfl)

/-- C5: for rectangles of positive width and height, area_overlap returns the
nonnegative intersection area of the two bounding boxes, and returns exactly
0 when the boxes share only an edge or a corner (degenerate intersection). -/
theorem area_overlap_spec (r1 r2 : Rectangle)
    (h1w : 0 < r1.shape.w) (h1h : 0 < r1.shape.h)
    (h2w : 0 < r2.shape.w) (h2h : 0 < r2.shape.h) :
    r1.area_overlap r2 = boxes_meet_area r1 r2 ∧
    0 ≤ r1.area_overlap r2 ∧
    ((min (r1.bounding_box.2).x (r2.bounding_box.2).x =
        max (r1.bounding_box.1).x (r2.bounding_box.1).x ∨
      min (r1.bounding_box.2).y (r2.bounding_box.2).y =
        max (r1.bounding_box.1).y (r2.bounding_box.1).y) →
      r1.area_overlap r2 = 0) := by
  unfold Rectangle.area_overlap boxes_meet_area
  split_ifs with hx hy
  · refine ⟨?_, le_refl 0, fun _ => rfl⟩
    rw [max_eq_left (sub_nonpos.mpr hx), zero_mul]
  · refine ⟨?_, le_refl 0, fun _ => rfl⟩
    rw [max_eq_left (sub_nonpos.mpr hy), mul_zero]
  · push_neg at hx hy
    refine ⟨?_, ?_, ?_⟩
    · rw [max_eq_right (le_of_lt (sub_pos.mpr hx)),
        max_eq_right (le_of_lt (sub_pos.mpr hy))]
    · exact le_of_lt (mul_pos (sub_pos.mpr hx) (sub_pos.mpr hy))
    · intro hdeg
      rcases hdeg with h | h
      · exact absurd h (ne_of_gt hx)
      · exact absurd h (ne_of_gt hy)

/-- A unit square touching unit_square along its right edge. -/
def adjacent_square : Rectangle :=
  ⟨⟨3 / 2, 1 / 2⟩, ⟨1, 1⟩, false, false, "ground"⟩

/-- C5, witness: the overlap specification applied to two edge-sharing unit
squares. -/
theorem area_overlap_spec_witness :
    unit_square.area_overlap adjacent_square = boxes_meet_area unit_square adjacent_square ∧
    0 ≤ unit_square.area_overlap adjacent_square ∧
    ((min (unit_square.bounding_box.2).x (adjacent_square.bounding_box.2).x =
        max (unit_square.bounding_box.1).x (adjacent_square.bounding_box.1).x ∨
      min (unit_square.bounding_box.2).y (adjacent_square.bounding_box.2).y =
        max (unit_square.bounding_box.1).y (adjacent_square.bounding_box.1).y) →
      unit_square.area_overlap adjacent_square = 0) :=
  area_overlap_spec unit_square adjacent_square (by norm_num [unit_square])
    (by norm_num [unit_square]) (by norm_num [adjacent_square])
    (by norm_num [adjacent_square])

/-- C7, counterexample: the cut -1/2 is not strictly inside the horizontal
extent (0, 1) of the unit square, yet split_horizontal succeeds, because any
negative coordinate is replaced by the midline. -/
theorem split_negative_cut_cex :
    (unit_square.split_horizontal (-1 / 2)).isSome = true ∧
    ¬ ((unit_square.bounding_box.1).x < -1 / 2 ∧
       (-1 / 2 : ℚ) < (unit_square.bounding_box.2).x) :=
  of_decide_eq_true (by with_unfolding_all rfl)

/-- C7, amended: split_horizontal first replaces a negative x by the midline
center.x (the sentinel default); it fails exactly when the effective
coordinate is not strictly inside the horizontal extent, and otherwise cuts
the rectangle at the effective coordinate, preserving the vertical extent,
region and flags; symmetrically for split_vertical with y. -/
theorem split_cut_spec (r : Rectangle) (x y : ℚ) :
    (r.split_horizontal x = none ↔
       ¬ ((r.bounding_box.1).x < default_cut r.center.x x ∧
          default_cut r.center.x x < (r.bounding_box.2).x)) ∧
    (∀ r1 r2, r.split_horizontal x = some (r1, r2) →
       (r1.bounding_box.1).x = (r.bounding_box.1).x ∧
       (r1.bounding_box.2).x = default_cut r.center.x x ∧
       (r2.bounding_box.1).x = default_cut r.center.x x ∧
       (r2.bounding_box.2).x = (r.bounding_box.2).x ∧
       (r1.bounding_box.1).y = (r.bounding_box.1).y ∧
       (r1.bounding_box.2).y = (r.bounding_box.2).y ∧
       (r2.bounding_box.1).y = (r.bounding_box.1).y ∧
       (r2.bounding_box.2).y = (r.bounding_box.2).y ∧
       r1.region = r.region ∧ r2.region = r.region ∧
       r1.fixed = r.fixed ∧ r2.fixed = r.fixed ∧
       r1.hard = r.hard ∧ r2.hard = r.hard) ∧
    (r.split_vertical y = none ↔
       ¬ ((r.bounding_box.1).y < default_cut r.center.y y ∧
          default_cut r.center.y y < (r.bounding_box.2).y)) ∧
    (∀ r1 r2, r.split_vertical y = some (r1, r2) →
       (r1.bounding_box.1).y = (r.bounding_box.1).y ∧
       (r1.bounding_box.2).y = default_cut r.center.y y ∧
       (r2.bounding_box.1).y = default_cut r.center.y y ∧
       (r2.bounding_box.2).y = (r.bounding_box.2).y ∧
       (r1.bounding_box.1).x = (r.bounding_box.1).x ∧
       (r1.bounding_box.2).x = (r.bounding_box.2).x ∧
       (r2.bounding_box.1).x = (r.bounding_box.1).x ∧
       (r2.bounding_box.2).x = (r.bounding_box.2).x ∧
       r1.region = r.region ∧ r2.region = r.region ∧
       r1.fixed = r.fixed ∧ r2.fixed = r.fixed ∧
       r1.hard = r.hard ∧ r2.hard = r.hard) := by
  refine ⟨?_, ?_, ?_, ?_⟩
  · unfold Rectangle.split_horizontal
    split_ifs with h
    · simp [h]
    · simp [h]
  · intro r1 r2 heq
    unfold Rectangle.split_horizontal at heq
    split_ifs at heq with h
    · rw [Option.some.injEq, Prod.mk.injEq] at heq
      obtain ⟨h1, h2⟩ := heq
      subst h1
      subst h2
      refine ⟨?_, ?_, ?_, ?_, ?_, ?_, ?_, ?_, rfl, rfl, rfl, rfl, rfl, rfl⟩ <;>
        simp [Rectangle.bounding_box] <;> try ring
  · unfold Rectangle.split_vertical
    split_ifs with h
    · simp [h]
    · simp [h]
  · intro r1 r2 heq
    unfold Rectangle.split_vertical at heq
    split_ifs at heq with h
    · rw [Option.some.injEq, Prod.mk.injEq] at heq
      obtain ⟨h1, h2⟩ := heq
      subst h1
      subst h2
      refine ⟨?_, ?_, ?_, ?_, ?_, ?_, ?_, ?_, rfl, rfl, rfl, rfl, rfl, rfl⟩ <;>
        simp [Rectangle.bounding_box] <;> try ring

/-- C7, witness: at the cut 5 (outside the unit square) the amended
specification yields failure. -/
theorem split_cut_spec_witness : unit_square.split_horizontal 5 = none :=
  ((split_cut_spec unit_square 5 5).1).mpr
    (by norm_num [unit_square, Rectangle.bounding_box, default_cut])

/-- Helper: the overlap area of the source is never negative. -/
lemma area_overlap_nonneg (r1 r2 : Rectangle) : 0 ≤ r1.area_overlap r2 := by
  unfold Rectangle.area_overlap
  split_ifs with hx hy
  · exact le_refl 0
  · exact le_refl 0
  · push_neg at hx hy
    exact le_of_lt (mul_pos (sub_pos.mpr hx) (sub_pos.mpr hy))

/-- Helper: the pairwise loop of Die._check_rectangles certifies that every
pair of the list has overlap area zero. -/
lemma no_pair_overlap_sound :
    ∀ l : List Rectangle, no_pair_overlap l = true →
      List.Pairwise (fun a b => a.area_overlap b = 0) l := by
  intro l
  induction l with
  | nil => intro _; exact List.Pairwise.nil
  | cons r rs ih =>
      intro h
      rw [no_pair_overlap, Bool.and_eq_true] at h
      refine List.Pairwise.cons ?_ (ih h.2)
      intro s hs
      have hb := List.all_eq_true.mp h.1 s hs
      have hnp : ¬ (0 < r.area_overlap s) := by
        simpa [Rectangle.overlap] using hb
      exact le_antisymm (not_lt.mp hnp) (area_overlap_nonneg r s)

/-- C1: whenever Die._check_rectangles succeeds (as it must for every Die
whose construction completes), every point of every listed rectangle lies in
the die rectangle, every pair of listed rectangles has overlap area zero, and
the total area is within the die's coordinate epsilon of width times
height. -/
theorem die_check_sound (d : DieData) (hc : d.check_rectangles = true) :
    (∀ r ∈ d.all_rectangles, ∀ p : Point,
       r.point_inside p = true → d.die_rectangle.point_inside p = true) ∧
    List.Pairwise (fun a b => a.area_overlap b = 0) d.all_rectangles ∧
    |((d.all_rectangles.map Rectangle.area).sum) - d.shape.w * d.shape.h| <
      die_epsilon d.shape := by
  rw [DieData.check_rectangles, Bool.and_eq_true, Bool.and_eq_true] at hc
  obtain ⟨⟨h1, h2⟩, h3⟩ := hc
  refine ⟨?_, no_pair_overlap_sound _ h2, ?_⟩
  · intro r hr p hp
    have hcorners := List.all_eq_true.mp h1 r hr
    rw [Bool.and_eq_true] at hcorners
    obtain ⟨hll, hur⟩ := hcorners
    rw [Rectangle.point_inside, decide_eq_true_eq] at hll hur hp ⊢
    obtain ⟨a1, a2, a3, a4⟩ := hll
    obtain ⟨b1, b2, b3, b4⟩ := hur
    obtain ⟨c1, c2, c3, c4⟩ := hp
    exact ⟨le_trans a1 c1, le_trans c2 b2, le_trans a3 c3, le_trans c4 b4⟩
  · have := of_decide_eq_true h3
    simpa [DieData.die_rectangle, Rectangle.area] using this

/-- C1, witness: the soundness of the check applied to a 10 x 10 die covered
by one ground rectangle. -/
theorem die_check_sound_witness :
    (∀ r ∈ demo_die.all_rectangles, ∀ p : Point,
       r.point_inside p = true → demo_die.die_rectangle.point_inside p = true) ∧
    List.Pairwise (fun a b => a.area_overlap b = 0) demo_die.all_rectangles ∧
    |((demo_die.all_rectangles.map Rectangle.area).sum) -
       demo_die.shape.w * demo_die.shape.h| < die_epsilon demo_die.shape :=
  die_check_sound demo_die (of_decide_eq_true (by with_unfolding_all rfl))

/-- Strip grid with one row of four unit cells, columns 0 and 2 occupied:
two free unit cells that yield two equal-area candidates. -/
def tie_grid : CellGrid :=
  ⟨[0, 1, 2, 3, 4], [0, 1], [[true, false, true, false]]⟩

/-- The candidate generated first (free cell in column 1). -/
def tie_low : GroundRegion := ⟨0, 0, 1, 1, 1, 1⟩

/-- The candidate generated second (free cell in column 3). -/
def tie_high : GroundRegion := ⟨0, 0, 3, 3, 1, 1⟩

/-- Helper: the selection loop of Die._find_largest_ground_region returns a
member of its input list whose stored area bounds the whole list, provided
the running maximum bounds what the accumulator holds. -/
lemma select_max_go_spec :
    ∀ (l : List GroundRegion) (m : ℚ) (best : Option GroundRegion)
      (g : GroundRegion), select_max_go m best l = some g →
      (best = some g ∧ ∀ x ∈ l, x.area ≤ m) ∨
      (g ∈ l ∧ m ≤ g.area ∧ ∀ x ∈ l, x.area ≤ g.area) := by
  intro l
  induction l with
  | nil =>
      intro m best g h
      left
      exact ⟨h, by simp⟩
  | cons r rest ih =>
      intro m best g h
      rw [select_max_go] at h
      by_cases hm : m < r.area
      · rw [if_pos hm] at h
        rcases ih r.area (some r) g h with ⟨heq, hall⟩ | ⟨hmem, hle, hall⟩
        · obtain rfl : r = g := Option.some.injEq r g ▸ heq
          right
          refine ⟨List.mem_cons_self r rest, le_of_lt hm, ?_⟩
          intro x hx
          rcases List.mem_cons.mp hx with rfl | hx
          · exact le_refl _
          · exact hall x hx
        · right
          refine ⟨List.mem_cons_of_mem r hmem, le_trans (le_of_lt hm) hle, ?_⟩
          intro x hx
          rcases List.mem_cons.mp hx with rfl | hx
          · exact hle
          · exact hall x hx
      · rw [if_neg hm] at h
        push_neg at hm
        rcases ih m best g h with ⟨heq, hall⟩ | ⟨hmem, hle, hall⟩
        · left
          refine ⟨heq, ?_⟩
          intro x hx
          rcases List.mem_cons.mp hx with rfl | hx
          · exact hm
          · exact hall x hx
        · right
          refine ⟨List.mem_cons_of_mem r hmem, hle, ?_⟩
          intro x hx
          rcases List.mem_cons.mp hx with rfl | hx
          · exact le_trans hm hle
          · exact hall x hx

/-- C2, counterexample: on tie_grid the candidate set holds the two
equal-area regions tie_low and tie_high, discovered in that order (tie_low
has the lower starting column). The selection loop runs over a Python set of
candidates, whose iteration order is not insertion order: under the
enumeration [tie_high, tie_low] — the order CPython's hash table yields for
this very input, since hash(tie_high) = 90 and hash(tie_low) = 30 land in
slots 2 and 6 of the 8-slot table — the loop selects tie_high, not the
first-encountered lowest-column candidate tie_low. -/
theorem ground_tie_break_cex :
    List.Perm [tie_high, tie_low] tie_grid.candidates ∧
    select_max [tie_high, tie_low] = some tie_high ∧
    select_max tie_grid.candidates = some tie_low ∧
    tie_high.area = tie_low.area ∧ tie_high.rmin = tie_low.rmin ∧
    tie_low.cmin < tie_high.cmin ∧ tie_high ≠ tie_low := by
  have hc : tie_grid.candidates = [tie_low, tie_high] :=
    of_decide_eq_true (by with_unfolding_all rfl)
  refine ⟨?_, ?_, ?_, ?_, ?_, ?_, ?_⟩
  · rw [hc]
    exact List.Perm.swap tie_low tie_high []
  · exact of_decide_eq_true (by with_unfolding_all rfl)
  · rw [hc]
    exact of_decide_eq_true (by with_unfolding_all rfl)
  · exact of_decide_eq_true (by with_unfolding_all rfl)
  · exact of_decide_eq_true (by with_unfolding_all rfl)
  · exact of_decide_eq_true (by with_unfolding_all rfl)
  · exact of_decide_eq_true (by with_unfolding_all rfl)

/-- C2, amended: at each decomposition step, whatever order the candidate set
is enumerated in (Python set iteration order is unspecified), the selected
region is one of the candidates generated by breadth-first row/column
expansion from the free starting cells and its stored area is maximal among
all of them; which equal-area candidate is selected depends on the
enumeration order, not on the lowest-row, lowest-column rule. -/
theorem ground_selection_maximal (g : CellGrid) (l : List GroundRegion)
    (reg : GroundRegion) (hperm : l.Perm g.candidates)
    (hsel : select_max l = some reg) :
    reg ∈ g.candidates ∧ ∀ r ∈ g.candidates, r.area ≤ reg.area := by
  rcases select_max_go_spec l (-1) none reg hsel with ⟨heq, _⟩ | ⟨hmem, _, hall⟩
  · exact absurd heq (by simp)
  · exact ⟨hperm.mem_iff.mp hmem, fun r hr => hall r (hperm.mem_iff.mpr hr)⟩

/-- C2, witness: the amended maximality applied to tie_grid with the
insertion-order enumeration of its candidates. -/
theorem ground_selection_maximal_witness :
    tie_low ∈ tie_grid.candidates ∧
    ∀ r ∈ tie_grid.candidates, r.area ≤ tie_low.area :=
  ground_selection_maximal tie_grid tie_grid.candidates tie_low
    (List.Perm.refl _) (of_decide_eq_true (by with_unfolding_all rfl))

/-- Helper: the default vertical split of a rectangle of positive height
halves the height. -/
lemma split_vertical_mid (r : Rectangle) (hh : 0 < r.shape.h) :
    r.split_vertical (-1) =
      some ({ r with center := ⟨r.center.x, r.center.y - r.shape.h / 4⟩,
                     shape := ⟨r.shape.w, r.shape.h / 2⟩ },
            { r with center := ⟨r.center.x, r.center.y + r.shape.h / 4⟩,
                     shape := ⟨r.shape.w, r.shape.h / 2⟩ }) := by
  have hm : (-1 : ℚ) < 0 := by norm_num
  simp only [Rectangle.split_vertical, default_cut, Rectangle.bounding_box, if_pos hm]
  rw [if_pos ⟨by linarith, by linarith⟩]
  simp only [Option.some.injEq, Prod.mk.injEq, Rectangle.mk.injEq, Point.mk.injEq,
    Shape.mk.injEq, true_and, and_true]
  repeat' apply And.intro
  all_goals ring

/-- Helper: the default horizontal split of a rectangle of positive width
halves the width. -/
lemma split_horizontal_mid (r : Rectangle) (hw : 0 < r.shape.w) :
    r.split_horizontal (-1) =
      some ({ r with center := ⟨r.center.x - r.shape.w / 4, r.center.y⟩,
                     shape := ⟨r.shape.w / 2, r.shape.h⟩ },
            { r with center := ⟨r.center.x + r.shape.w / 4, r.center.y⟩,
                     shape := ⟨r.shape.w / 2, r.shape.h⟩ }) := by
  have hm : (-1 : ℚ) < 0 := by norm_num
  simp only [Rectangle.split_horizontal, default_cut, Rectangle.bounding_box, if_pos hm]
  rw [if_pos ⟨by linarith, by linarith⟩]
  simp only [Option.some.injEq, Prod.mk.injEq, Rectangle.mk.injEq, Point.mk.injEq,
    Shape.mk.injEq, true_and, and_true]
  repeat' apply And.intro
  all_goals ring

/-- C4: for every rectangle of positive width and height whose aspect exceeds
the square root of 2, Rectangle.split succeeds and at least one of the two
returned rectangles has aspect at most max(aspect/2, 2). -/
theorem split_reduces_aspect (r : Rectangle) (hw : 0 < r.shape.w)
    (hh : 0 < r.shape.h) (ha : Real.sqrt 2 < (r.aspect : ℝ)) :
    ∃ r1 r2, r.split = some (r1, r2) ∧
      (r1.aspect ≤ max (r.aspect / 2) 2 ∨ r2.aspect ≤ max (r.aspect / 2) 2) := by
  have hsq : (2 : ℚ) < r.aspect ^ 2 := by
    have h0 : (0 : ℝ) ≤ Real.sqrt 2 := Real.sqrt_nonneg 2
    have h2 : Real.sqrt 2 ^ 2 = 2 := Real.sq_sqrt (by norm_num)
    have : (2 : ℝ) < ((r.aspect : ℚ) : ℝ) ^ 2 := by nlinarith
    exact_mod_cast this
  rcases lt_trichotomy r.shape.w r.shape.h with hlt | heq | hgt
  · rw [Rectangle.split, if_pos hlt, split_vertical_mid r hh]
    refine ⟨_, _, rfl, Or.inl ?_⟩
    simp only [Rectangle.aspect]
    rw [if_neg (not_lt.mpr ((one_le_div hw).mpr hlt.le))]
    by_cases hc : r.shape.h / 2 / r.shape.w < 1
    · rw [if_pos hc]
      refine le_trans ?_ (le_max_right (r.shape.h / r.shape.w / 2) 2)
      rw [one_div_div, div_le_iff₀ (by linarith : (0 : ℚ) < r.shape.h / 2)]
      linarith
    · rw [if_neg hc]
      refine le_trans (le_of_eq ?_) (le_max_left (r.shape.h / r.shape.w / 2) 2)
      ring
  · exfalso
    have h1 : r.aspect = 1 := by
      simp only [Rectangle.aspect, heq, div_self (ne_of_gt hh)]
      norm_num
    rw [h1] at hsq
    norm_num at hsq
  · rw [Rectangle.split, if_neg (not_lt.mpr hgt.le), split_horizontal_mid r hw]
    refine ⟨_, _, rfl, Or.inl ?_⟩
    simp only [Rectangle.aspect]
    rw [if_pos ((div_lt_one hw).mpr hgt)]
    by_cases hc : r.shape.h / (r.shape.w / 2) < 1
    · rw [if_pos hc]
      refine le_trans (le_of_eq ?_) (le_max_left (1 / (r.shape.h / r.shape.w) / 2) 2)
      rw [one_div_div, one_div_div]
      ring
    · rw [if_neg hc]
      refine le_trans ?_ (le_max_right (1 / (r.shape.h / r.shape.w) / 2) 2)
      rw [div_le_iff₀ (by linarith : (0 : ℚ) < r.shape.w / 2)]
      linarith

/-- C4, witness: the aspect reduction applied to the 1 x 10 rectangle. -/
theorem split_reduces_aspect_witness :
    ∃ r1 r2, tall_rect.split = some (r1, r2) ∧
      (r1.aspect ≤ max (tall_rect.aspect / 2) 2 ∨
       r2.aspect ≤ max (tall_rect.aspect / 2) 2) :=
  split_reduces_aspect tall_rect (by norm_num [tall_rect])
    (by norm_num [tall_rect])
    (by
      have h10 : tall_rect.aspect = 10 := by
        norm_num [Rectangle.aspect, tall_rect]
      rw [h10]
      have h2 : Real.sqrt 2 ≤ 2 := by
        have hs : Real.sqrt 2 ≤ Real.sqrt 4 := Real.sqrt_le_sqrt (by norm_num)
        rw [show (4 : ℝ) = 2 ^ 2 by norm_num,
          Real.sqrt_sq (by norm_num : (0 : ℝ) ≤ 2)] at hs
        exact hs
      have : ((10 : ℚ) : ℝ) = 10 := by norm_num
      rw [this]
      linarith)

end Frame

